import Mathlib

/-!
Verification of the PMC chatbot RAG core (chunking, vector search formatting,
token-budgeted context assembly, conversation management) against its
natural-language specification.  Python text is modelled as `List Char`,
Python integers as `Int`/`Nat`, fallible collaborators (embedding provider,
index, completion service) as explicit `Except`-valued oracles, and the
`while` loop of the chunker with an explicit fuel parameter so that
non-termination is observable as fuel exhaustion for every fuel value.
-/

namespace PMC

/-- Python str.strip: remove whitespace from the front, then from the back. -/
def pyStrip (s : List Char) : List Char :=
  List.rdropWhile Char.isWhitespace (List.dropWhile Char.isWhitespace s)

/-- Resolution of one Python slice endpoint for s[a:b] on a sequence of length n:
a negative endpoint counts from the back (clamped below at 0), a nonnegative one
is clamped above at n. -/
def pySliceIdx (n : Nat) (i : Int) : Nat :=
  if i < 0 then (i + n).toNat else min i.toNat n

/-- Python slice s[a:b]. -/
def pySlice (s : List Char) (a b : Int) : List Char :=
  (s.take (pySliceIdx s.length b)).drop (pySliceIdx s.length a)

/-- Python indexing s[i]: a negative index counts from the back.  An index
outside [-n, n) raises IndexError in Python; here it returns a space, and no
theorem below exercises that regime. -/
def pyCharAt (s : List Char) (i : Int) : Char :=
  if 0 ≤ i then s.getD i.toNat ' ' else s.getD (s.length + i).toNat ' '

/-- The sentence-terminal characters searched for by chunk_text. -/
def isSentenceEnd (c : Char) : Bool :=
  c == '.' || c == '!' || c == '?'

/-- The backward scan of chunk_text (utils.py lines 54-57): for i in
range(e, lo, -1), return the first i with text[i] a sentence terminator.
The counter k tracks the number of remaining loop indices, e - lo at entry. -/
def scanBackAux (text : List Char) (lo : Int) : Nat → Int → Option Int
  | 0, _ => none
  | k + 1, i =>
    if i ≤ lo then none
    else if isSentenceEnd (pyCharAt text i) then some i
    else scanBackAux text lo k (i - 1)

/-- Backward sentence-boundary search over the index range (lo, e]. -/
def scanBack (text : List Char) (lo e : Int) : Option Int :=
  scanBackAux text lo (e - lo).toNat e

/-- One boundary computation of chunk_text (utils.py lines 49-57): the
tentative end is start + chunk_size; if that lies inside the text, the nearest
sentence terminator at most 100 characters back replaces it. -/
def chunkEnd (text : List Char) (chunkSize : Nat) (start : Int) : Int :=
  let e : Int := start + (chunkSize : Int)
  if e < (text.length : Int) then
    match scanBack text (max (start + (chunkSize : Int) - 100) start) e with
    | some i => i + 1
    | none => e
  else e

/-- The while loop of chunk_text (utils.py lines 48-65), with fuel: each
iteration emits the stripped slice [start, end) when non-empty, then moves the
cursor to end - overlap and stops once it reaches the text length.  `none`
means the fuel ran out before the loop exited. -/
def chunkLoop (text : List Char) (chunkSize overlap : Nat) :
    Nat → Int → List (List Char) → Option (List (List Char))
  | 0, _, _ => none
  | fuel + 1, start, acc =>
    if start < (text.length : Int) then
      let e := chunkEnd text chunkSize start
      let c := pyStrip (pySlice text start e)
      let acc2 := if c.isEmpty then acc else acc ++ [c]
      let start2 := e - (overlap : Int)
      if (text.length : Int) ≤ start2 then some acc2
      else chunkLoop text chunkSize overlap fuel start2 acc2
    else some acc

/-- chunk_text (utils.py lines 40-67): text of length at most chunk_size is
returned verbatim as a single chunk; otherwise the chunking loop runs. -/
def chunk_text (text : List Char) (chunkSize overlap fuel : Nat) :
    Option (List (List Char)) :=
  if text.length ≤ chunkSize then some [text]
  else chunkLoop text chunkSize overlap fuel 0 []

example : chunk_text ([' ', 'a', ' ']) 10 2 100 = some [[' ', 'a', ' ']] := by decide

example : chunk_text ("ab.de fgh".toList) 5 1 100 =
    some ["ab.".toList, ".de f".toList, "fgh".toList] := by decide

example : chunk_text (List.replicate 11 'a') 10 10 50 = none := by decide

/-- Chunk metadata as stored with each index entry, modelled as an
association list of string keys to string values. -/
abbrev Metadata : Type := List (String × String)

/-- One raw hit of the underlying index query (vector_store.py lines 100-113):
the document text, its metadata, and its cosine distance, one triple per rank
position of the zipped parallel lists returned by the collection. -/
structure RawHit where
  content : String
  metadata : Metadata
  distance : Rat
  deriving DecidableEq

/-- One formatted search result (vector_store.py lines 114-119). -/
structure SearchResult where
  content : String
  metadata : Metadata
  similarity_score : Rat
  rank : Nat
  deriving DecidableEq

/-- The formatting loop of PMCVectorStore.search (vector_store.py lines
107-119): enumerate the hits from index i, reporting rank i + 1 and
similarity 1 - distance. -/
def formatResultsFrom : Nat → List RawHit → List SearchResult
  | _, [] => []
  | i, h :: t =>
    ⟨h.content, h.metadata, 1 - h.distance, i + 1⟩ :: formatResultsFrom (i + 1) t

/-- Formatting of all hits, starting the enumeration at 0. -/
def formatResults (hits : List RawHit) : List SearchResult :=
  formatResultsFrom 0 hits

/-- PMCVectorStore.search (vector_store.py lines 93-126) as a function of the
outcome of the embedding step plus index query: on success the hits are
formatted, and any exception is caught and turned into the empty list. -/
def search (outcome : Except String (List RawHit)) : List SearchResult :=
  match outcome with
  | Except.error _ => []
  | Except.ok hits => formatResults hits

/-- PMCChatbot.search_documents (chatbot.py lines 120-127) as a function of
the outcome of the inner search call: exceptions are caught and turned into
the empty list, successes are passed through. -/
def search_documents (outcome : Except String (List SearchResult)) :
    List SearchResult :=
  match outcome with
  | Except.error _ => []
  | Except.ok results => results

/-- Metadata title lookup with default, Python metadata.get with fallback
of the string Unknown (vector_store.py line 201). -/
def titleOf (m : Metadata) : String :=
  (List.lookup "title" (m : List (String × String))).getD "Unknown"

/-- One labeled context block (vector_store.py line 201). -/
def contextBlock (r : SearchResult) : String :=
  "Source: " ++ titleOf r.metadata ++ "\n" ++ r.content

/-- The rough token estimate of vector_store.py line 196: one token per four
characters of the result content, by integer division. -/
def estTokens (r : SearchResult) : Nat :=
  r.content.length / 4

/-- The accumulation loop of PMCVectorStore.get_relevant_context
(vector_store.py lines 190-202): each result costs len(content) // 4
estimated tokens; the loop breaks at the first result whose addition would
push the running total past the budget, otherwise appends its labeled block. -/
def assembleParts (budget : Nat) : List SearchResult → Nat → List String
  | [], _ => []
  | r :: rs, current =>
    if budget < current + estTokens r then []
    else contextBlock r :: assembleParts budget rs (current + estTokens r)

/-- PMCVectorStore.get_relevant_context (vector_store.py lines 180-211) as a
function of the search results (the retrieval step is factored out as the
input list): empty results give the empty string, otherwise the accumulated
blocks are joined by blank lines. -/
def get_relevant_context (results : List SearchResult) (budget : Nat) : String :=
  if results.isEmpty then ""
  else String.intercalate "\n\n" (assembleParts budget results 0)

example :
    get_relevant_context
      [⟨"abcdefgh", [("title", "T1")], 1, 1⟩, ⟨"0123456789012345", [], 1, 2⟩] 3 =
    "Source: T1\nabcdefgh" := by decide

/-- Abstract embedding vectors; their values never matter to the properties
below, only how many there are and whether the provider produced any. -/
abbrev Embedding : Type := List Rat

/-- One stored index entry: id, embedding, text and metadata
(vector_store.py lines 79-84). -/
structure IndexEntry where
  id : String
  embedding : Embedding
  text : String
  metadata : Metadata

/-- One scraped document record as read from the data file
(vector_store.py lines 53-65). -/
structure Doc where
  url : String
  title : String
  chunks : List String
  metadata : Metadata

/-- The chunk-flattening loop of PMCVectorStore.add_documents
(vector_store.py lines 49-65): every non-whitespace chunk of every document
becomes a text together with its metadata and id doc_i_chunk_j.  The
document metadata is placed first because association-list lookup takes the
first match while the Python dict merge lets it override url and title; the
numeric chunk_index and total_chunks entries of the merged dict are omitted
from this string-valued metadata model. -/
def gatherChunks (docs : List Doc) : List (String × Metadata × String) :=
  (docs.enum.map fun di =>
    (di.2.chunks.enum.filterMap fun cj =>
      if (pyStrip cj.2.toList).isEmpty then none
      else some (cj.2,
        di.2.metadata ++ ([("url", di.2.url), ("title", di.2.title)] : Metadata),
        "doc_" ++ toString di.1 ++ "_chunk_" ++ toString cj.1))).flatten

/-- PMCVectorStore.add_documents (vector_store.py lines 46-91), as a function
of the embedding provider outcome: the provider is create_embeddings, which
already catches its own exceptions and yields the empty list on failure
(vector_store.py lines 37-44).  Returns the Python boolean result together
with the collection contents after the call. -/
def add_documents (embedProvider : List String → List Embedding)
    (docs : List Doc) (col : List IndexEntry) : Bool × List IndexEntry :=
  let gathered := gatherChunks docs
  if gathered.isEmpty then (false, col)
  else
    let embs := embedProvider (gathered.map (·.1))
    if embs.isEmpty then (false, col)
    else
      (true, col ++ (gathered.zip embs).map fun ge =>
        ⟨ge.1.2.2, ge.2, ge.1.1, ge.1.2.1⟩)

/-- PMCVectorStore.load_and_index_data (vector_store.py lines 153-178):
if the collection already holds entries (count() > 0), indexing is skipped
and success is reported; otherwise the documents loaded from the data file
(passed here as fileData, empty meaning no data found) are added. -/
def load_and_index_data (embedProvider : List String → List Embedding)
    (fileData : List Doc) (col : List IndexEntry) : Bool × List IndexEntry :=
  if 0 < col.length then (true, col)
  else if fileData.isEmpty then (false, col)
  else add_documents embedProvider fileData col

/-- One conversation turn (chatbot.py lines 51-55); the timestamp field does
not influence any property below and is omitted. -/
structure Turn where
  role : String
  content : String
  deriving DecidableEq

/-- One message sent to the completion service. -/
structure Msg where
  role : String
  content : String
  deriving DecidableEq

/-- The system prompt of chatbot.py lines 29-45, abbreviated; its exact text
plays no role in any property below. -/
def system_prompt : String :=
  "You are an AI assistant for the Prime Minister\x27s Office (PMO) website."

/-- The fixed instruction wrapper around retrieved context
(chatbot.py lines 67-71). -/
def contextWrapper (context : String) : String :=
  "Use the following information from the PMO website to answer the " ++
  "user\x27s question:\n\n" ++ context ++ "\n\nPlease provide a helpful " ++
  "response based on this information. If the information doesn\x27t answer " ++
  "the question completely, say so."

/-- Message construction of PMCChatbot.get_response (chatbot.py lines 62-80):
the system prompt, then the context wrapper when context is non-empty, then
the last 10 stored turns with user and assistant roles forwarded and any
other role dropped. -/
def buildMessages (sp context : String) (history : List Turn) : List Msg :=
  (if context = "" then [⟨"system", sp⟩]
   else [⟨"system", sp⟩, ⟨"system", contextWrapper context⟩]) ++
  (history.drop (history.length - 10)).filterMap fun t =>
    if t.role = "user" then some ⟨"user", t.content⟩
    else if t.role = "assistant" then some ⟨"assistant", t.content⟩
    else none

/-- The prompt-construction step in state-passing form: chatbot.py lines
74-80 only read conversation_history (the slice [-10:] builds a fresh list),
so the stored history passes through unchanged. -/
def buildPromptSt (sp context : String) (history : List Turn) :
    List Msg × List Turn :=
  (buildMessages sp context history, history)

/-- The conversation_length statistic of PMCChatbot.get_system_info
(chatbot.py line 147). -/
def conversation_length (history : List Turn) : Nat :=
  history.length

/-- Python assistant_message or the empty string (chatbot.py line 95): both a
null and an empty completion are recorded as the empty string. -/
def pyOrEmpty (m : Option String) : String :=
  match m with
  | none => ""
  | some s => if s = "" then "" else s

/-- The fixed apologetic fallback message of chatbot.py line 114, with
apologies for eliding the contraction. -/
def apologyMessage : String :=
  "I apologize, but I am experiencing technical difficulties. " ++
  "Please try again later."

/-- The response object of PMCChatbot.get_response: a success carries the raw
completion (possibly null), whether context was used (bool(context)) and the
context length (chatbot.py lines 100-106); a failure carries the fixed
fallback message and the error detail (chatbot.py lines 113-117).  Timestamp
and model-name fields are configuration echoes and are omitted. -/
inductive RespOutcome where
  | success (response : Option String) (context_used : Bool)
      (context_length : Nat)
  | failure (message : String) (error : String)
  deriving DecidableEq

/-- PMCChatbot.get_response (chatbot.py lines 47-118), as a function of the
completion-service oracle and of the context string (get_relevant_context
catches its own exceptions and always returns a string, chatbot.py lines
58-60 and vector_store.py lines 209-211; with use_context False the context
is the empty string).  The user turn is appended first; then the completion
service is called on the built messages; on success the assistant turn is
appended, and on an exception the handler returns the fallback object with
the history as it stands, the already-appended user turn included. -/
def get_response (completion : List Msg → Except String (Option String))
    (context : String) (st : List Turn) (user_message : String) :
    RespOutcome × List Turn :=
  let st1 := st ++ [⟨"user", user_message⟩]
  match completion (buildMessages system_prompt context st1) with
  | Except.error e => (RespOutcome.failure apologyMessage e, st1)
  | Except.ok m =>
      (RespOutcome.success m (!context.isEmpty) context.length,
       st1 ++ [⟨"assistant", pyOrEmpty m⟩])

/-- A heap of Python list objects holding conversation turns: addresses are
allocation order, so every address below next is in use.  This models the
distinction between an aliased list and the fresh copy made by
conversation_history.copy(). -/
structure Heap where
  store : Nat → List Turn
  next : Nat

/-- Read the list at an address. -/
def hget (h : Heap) (a : Nat) : List Turn :=
  h.store a

/-- In-place mutation of the list at an address (append, remove, reorder and
so on, given as an arbitrary function on the list value). -/
def hset (h : Heap) (a : Nat) (v : List Turn) : Heap :=
  ⟨fun b => if b = a then v else h.store b, h.next⟩

/-- Allocate a fresh list object. -/
def halloc (h : Heap) (v : List Turn) : Nat × Heap :=
  (h.next, ⟨fun b => if b = h.next then v else h.store b, h.next + 1⟩)

/-- PMCChatbot.get_conversation_history (chatbot.py lines 129-131):
returns self.conversation_history.copy(), a freshly allocated list holding
the same turns as the internal list at histRef. -/
def get_conversation_history (histRef : Nat) (h : Heap) : Nat × Heap :=
  halloc h (hget h histRef)

/-- On the degenerate input of eleven letters with chunk_size 10 and
overlap 10, one loop iteration of chunk_text leaves the cursor at 0, so the
loop never exits for any amount of fuel. -/
lemma chunkLoop_stuck :
    ∀ (fuel : Nat) (acc : List (List Char)),
      chunkLoop (List.replicate 11 'a') 10 10 fuel 0 acc = none := by
  intro fuel
  induction fuel with
  | zero => intro acc; rfl
  | succ n ih =>
      intro acc
      have hstep : chunkLoop (List.replicate 11 'a') 10 10 (n + 1) 0 acc =
          chunkLoop (List.replicate 11 'a') 10 10 n 0
            (acc ++ [List.replicate 10 'a']) := rfl
      rw [hstep]
      exact ih _

/-- C2: the claim that chunk_text makes forward progress and terminates for
every configuration, including overlap at least chunk_size, fails on the
code: on eleven letters with chunk_size 10 and overlap 10 the cursor stays
at 0 (the new cursor is end - overlap = 10 - 10) and the while loop runs
forever, which the fuel embedding registers as exhaustion at every fuel. -/
theorem chunk_text_degenerate_diverges :
    ∀ fuel : Nat, chunk_text (List.replicate 11 'a') 10 10 fuel = none := by
  intro fuel
  have h : chunk_text (List.replicate 11 'a') 10 10 fuel =
      chunkLoop (List.replicate 11 'a') 10 10 fuel 0 [] := rfl
  rw [h]
  exact chunkLoop_stuck fuel []

/-- Stripping is idempotent: a stripped list restripped is unchanged. -/
lemma pyStrip_idem (s : List Char) : pyStrip (pyStrip s) = pyStrip s := by
  unfold pyStrip
  set p := Char.isWhitespace with hp
  set t := List.dropWhile p s with ht
  have hts : List.dropWhile p t = t := by
    rw [ht]
    exact List.dropWhile_idempotent p s
  have hpre : List.rdropWhile p t <+: t := List.rdropWhile_prefix p t
  have hdrop : List.dropWhile p (List.rdropWhile p t) = List.rdropWhile p t := by
    rcases hpre with ⟨r, hr⟩
    cases hu : List.rdropWhile p t with
    | nil => rfl
    | cons c u2 =>
        rw [hu] at hr
        have hteq : t = c :: (u2 ++ r) := by
          rw [← hr]
          simp
        have hc : ¬ p c = true := by
          rw [hteq] at hts
          have := List.dropWhile_eq_self_iff.mp hts (by simp)
          simpa using this
        simp [List.dropWhile_cons, hc]
  rw [hdrop]
  exact List.rdropWhile_idempotent p t

/-- Every chunk appended by the chunking loop is a non-empty stripped slice,
so whenever the loop finishes with an accumulator of such chunks, the result
consists of such chunks. -/
lemma chunkLoop_chunks (text : List Char) (cs ov : Nat) :
    ∀ (fuel : Nat) (start : Int) (acc res : List (List Char)),
      (∀ c ∈ acc, c ≠ [] ∧ pyStrip c = c) →
      chunkLoop text cs ov fuel start acc = some res →
      ∀ c ∈ res, c ≠ [] ∧ pyStrip c = c := by
  intro fuel
  induction fuel with
  | zero =>
      intro start acc res hacc h
      exact Option.noConfusion h
  | succ n ih =>
      intro start acc res hacc h
      simp only [chunkLoop] at h
      set c0 := pyStrip (pySlice text start (chunkEnd text cs start)) with hc0
      set acc2 : List (List Char) := if c0.isEmpty then acc else acc ++ [c0]
        with hacc2
      have hacc2P : ∀ c ∈ acc2, c ≠ [] ∧ pyStrip c = c := by
        intro c hc
        rw [hacc2] at hc
        by_cases he : c0.isEmpty
        · rw [if_pos he] at hc
          exact hacc c hc
        · rw [if_neg he] at hc
          rcases List.mem_append.mp hc with h1 | h2
          · exact hacc c h1
          · have hcc : c = c0 := by simpa using h2
            subst hcc
            refine ⟨?_, by rw [hc0]; exact pyStrip_idem _⟩
            intro hnil
            rw [hnil] at he
            exact he rfl
      by_cases hs : start < (text.length : Int)
      · rw [if_pos hs] at h
        by_cases hb : (text.length : Int) ≤ chunkEnd text cs start - (ov : Int)
        · rw [if_pos hb] at h
          have hres : acc2 = res := Option.some.inj h
          rw [← hres]
          exact hacc2P
        · rw [if_neg hb] at h
          exact ih _ _ _ hacc2P h
      · rw [if_neg hs] at h
        have hres : acc = res := Option.some.inj h
        rw [← hres]
        exact hacc

/-- C5 counterexample: the claim promises a single chunk equal to the
trimmed text when the text fits in one chunk, and only non-empty trimmed
chunks in general, but chunk_text returns short input verbatim: on the
three-character text space-a-space it yields that text untrimmed, and on a
lone space it yields a whitespace-only chunk. -/
theorem chunk_text_untrimmed_cex :
    chunk_text (" a ".toList) 10 2 100 = some [" a ".toList] ∧
    pyStrip (" a ".toList) ≠ " a ".toList ∧
    chunk_text (" ".toList) 10 2 100 = some [" ".toList] ∧
    pyStrip (" ".toList) = [] := by
  decide

/-- C5 amended: when the text length is at most chunk_size, chunk_text
returns the text verbatim as a single chunk, untrimmed and possibly empty or
all-whitespace; otherwise the chunking loop emits only non-empty,
whitespace-trimmed chunks (an all-whitespace slice is dropped). -/
theorem chunk_text_emission (text : List Char) (cs ov fuel : Nat)
    (res : List (List Char)) (h : chunk_text text cs ov fuel = some res) :
    (text.length ≤ cs → res = [text]) ∧
    (cs < text.length → ∀ c ∈ res, c ≠ [] ∧ pyStrip c = c) := by
  constructor
  · intro hle
    unfold chunk_text at h
    rw [if_pos hle] at h
    exact (Option.some.inj h).symm
  · intro hlt
    unfold chunk_text at h
    rw [if_neg (by omega)] at h
    exact chunkLoop_chunks text cs ov fuel 0 [] res (by simp) h

/-- Witness for chunk_text_emission at a concrete over-length input. -/
theorem chunk_text_emission_witness :
    ("ab.de fgh".toList.length ≤ 5 →
      ["ab.".toList, ".de f".toList, "fgh".toList] = ["ab.de fgh".toList]) ∧
    (5 < "ab.de fgh".toList.length →
      ∀ c ∈ [("ab.".toList), (".de f".toList), ("fgh".toList)],
        c ≠ [] ∧ pyStrip c = c) :=
  chunk_text_emission "ab.de fgh".toList 5 1 100
    ["ab.".toList, ".de f".toList, "fgh".toList] (by decide)

/-- For the accumulation loop started at running total cur within budget,
there is a cut position n: the loop output is the labeled blocks of the
first n results, their estimated cost fits the budget, and when any results
remain the next one would have pushed the total past the budget. -/
lemma assembleParts_spec (budget : Nat) :
    ∀ (rs : List SearchResult) (cur : Nat), cur ≤ budget →
      ∃ n, n ≤ rs.length ∧
        assembleParts budget rs cur = (rs.take n).map contextBlock ∧
        cur + ((rs.take n).map estTokens).sum ≤ budget ∧
        (n < rs.length →
          budget < cur + ((rs.take (n + 1)).map estTokens).sum) := by
  intro rs
  induction rs with
  | nil =>
      intro cur hcur
      exact ⟨0, by simp, by simp [assembleParts], by simpa, by simp⟩
  | cons r t ih =>
      intro cur hcur
      by_cases hb : budget < cur + estTokens r
      · refine ⟨0, by simp, ?_, by simpa, ?_⟩
        · simp [assembleParts, hb]
        · intro _
          simpa using hb
      · push_neg at hb
        obtain ⟨n, hn, heq, hsum, hstop⟩ := ih (cur + estTokens r) hb
        refine ⟨n + 1, by simpa using hn, ?_, ?_, ?_⟩
        · simp [assembleParts, not_lt.mpr hb, heq]
        · simp only [List.take_succ_cons, List.map_cons, List.sum_cons]
          omega
        · intro hlt
          have hnt : n < t.length := by simpa using hlt
          have := hstop hnt
          simp only [List.take_succ_cons, List.map_cons, List.sum_cons]
          omega

/-- C3 amended: get_relevant_context includes a prefix of the results whose
content cost, measured as the sum of len(content) // 4 over the included
results (the Source label and the blank-line joiner are not counted), never
exceeds the budget; the first result whose addition would exceed the budget
and all following results are dropped entirely. -/
theorem get_relevant_context_budget (results : List SearchResult)
    (budget : Nat) :
    ∃ n, n ≤ results.length ∧
      get_relevant_context results budget =
        String.intercalate "\n\n" ((results.take n).map contextBlock) ∧
      ((results.take n).map estTokens).sum ≤ budget ∧
      (n < results.length →
        budget < ((results.take (n + 1)).map estTokens).sum) := by
  obtain ⟨n, hn, heq, hsum, hstop⟩ :=
    assembleParts_spec budget results 0 (Nat.zero_le _)
  refine ⟨n, hn, ?_, by simpa using hsum, by simpa using hstop⟩
  unfold get_relevant_context
  by_cases hre : results.isEmpty
  · have hnil : results = [] := List.isEmpty_iff.mp hre
    subst hnil
    have hn0 : n = 0 := by simpa using hn
    subst hn0
    rfl
  · rw [if_neg hre, heq]

/-- C3 counterexample: with budget 1, a single seven-character result has
content cost 7 / 4 = 1 and is included, but its labeled block has cost
23 / 4 = 5, so the returned string exceeds the budget when cost is summed
over the included labeled blocks as the claim states it. -/
theorem get_relevant_context_block_cost_cex :
    get_relevant_context [⟨"abcdefg", [], 1, 1⟩] 1 =
      "Source: Unknown\nabcdefg" ∧
    1 < "Source: Unknown\nabcdefg".length / 4 := by
  decide

/-- C4: running the ingestion pipeline when the index is already non-empty
is a no-op: the count() > 0 guard fires, indexing is skipped, success is
reported, and the collection, hence count(), is unchanged. -/
theorem load_and_index_data_idempotent
    (embedProvider : List String → List Embedding) (fileData : List Doc)
    (col : List IndexEntry) (h : 0 < col.length) :
    load_and_index_data embedProvider fileData col = (true, col) := by
  unfold load_and_index_data
  rw [if_pos h]

/-- Witness for load_and_index_data_idempotent on a one-entry collection. -/
theorem load_and_index_data_idempotent_witness :
    load_and_index_data (fun _ => []) []
        [⟨"doc_0_chunk_0", [], "some text", []⟩] =
      (true, [⟨"doc_0_chunk_0", [], "some text", []⟩]) :=
  load_and_index_data_idempotent _ _ _ (by simp)

/-- C1 counterexample: starting from an empty history, a get_response call
whose completion raises leaves the history holding the speculatively
recorded user turn, so the failed call did change the stored history. -/
theorem get_response_failure_cex :
    get_response (fun _ => Except.error "boom") "" [] "hi" =
      (RespOutcome.failure apologyMessage "boom", [⟨"user", "hi"⟩]) ∧
    ([(⟨"user", "hi"⟩ : Turn)] ≠ ([] : List Turn)) := by
  constructor
  · rfl
  · decide

/-- C1 amended: when the completion call raises, get_response returns the
fallback error object and the history equals the prior history extended by
exactly the user turn appended before the call; no assistant turn is added,
but the speculatively recorded user turn remains. -/
theorem get_response_failure_history
    (completion : List Msg → Except String (Option String))
    (context : String) (st : List Turn) (um e : String)
    (h : completion
        (buildMessages system_prompt context (st ++ [⟨"user", um⟩])) =
      Except.error e) :
    get_response completion context st um =
      (RespOutcome.failure apologyMessage e, st ++ [⟨"user", um⟩]) := by
  simp only [get_response]
  rw [h]

/-- Witness for get_response_failure_history at a concrete failing call. -/
theorem get_response_failure_history_witness :
    get_response (fun _ => Except.error "boom") "" [] "hi" =
      (RespOutcome.failure apologyMessage "boom",
        [] ++ [⟨"user", "hi"⟩]) :=
  get_response_failure_history _ "" [] "hi" "boom" rfl

/-- C9: when the completion service returns a null or empty completion,
get_response succeeds and records an empty-string assistant turn after the
user turn rather than erroring. -/
theorem get_response_empty_completion
    (completion : List Msg → Except String (Option String))
    (context : String) (st : List Turn) (um : String) (m : Option String)
    (h : completion
        (buildMessages system_prompt context (st ++ [⟨"user", um⟩])) =
      Except.ok m)
    (hm : m = none ∨ m = some "") :
    get_response completion context st um =
      (RespOutcome.success m (!context.isEmpty) context.length,
        st ++ [⟨"user", um⟩, ⟨"assistant", ""⟩]) := by
  have hcontent : pyOrEmpty m = "" := by
    rcases hm with h1 | h1 <;> simp [h1, pyOrEmpty]
  simp only [get_response]
  rw [h]
  simp [hcontent]

/-- Witness for get_response_empty_completion at a null completion. -/
theorem get_response_empty_completion_witness :
    get_response (fun _ => Except.ok none) "" [] "q" =
      (RespOutcome.success none (!("" : String).isEmpty)
          ("" : String).length,
        [] ++ [⟨"user", "q"⟩, ⟨"assistant", ""⟩]) :=
  get_response_empty_completion _ "" [] "q" none rfl (Or.inl rfl)

/-- C7: prompt construction depends only on the last 10 stored turns, which
form a suffix of the history of length at most 10, and it does not modify
the stored history, so the conversation_length statistic still reflects the
full history. -/
theorem build_prompt_window (sp context : String) (history : List Turn) :
    buildMessages sp context history =
      buildMessages sp context (history.drop (history.length - 10)) ∧
    (history.drop (history.length - 10)).length ≤ 10 ∧
    (∃ front, front ++ history.drop (history.length - 10) = history) ∧
    (buildPromptSt sp context history).2 = history ∧
    conversation_length ((buildPromptSt sp context history).2) =
      conversation_length history := by
  have hlen : (history.drop (history.length - 10)).length =
      history.length - (history.length - 10) := List.length_drop _ _
  refine ⟨?_, by omega, ⟨history.take (history.length - 10),
    List.take_append_drop _ _⟩, rfl, rfl⟩
  unfold buildMessages
  have hdd : (history.drop (history.length - 10)).drop
      ((history.drop (history.length - 10)).length - 10) =
      history.drop (history.length - 10) := by
    have : (history.drop (history.length - 10)).length - 10 = 0 := by omega
    rw [this, List.drop_zero]
  rw [hdd]

/-- Ranks assigned from enumeration index i are i+1, i+2, and so on. -/
lemma formatResultsFrom_map_rank :
    ∀ (hits : List RawHit) (i : Nat),
      (formatResultsFrom i hits).map SearchResult.rank =
        List.range' (i + 1) hits.length := by
  intro hits
  induction hits with
  | nil => intro i; rfl
  | cons h t ih =>
      intro i
      simp [formatResultsFrom, List.range'_succ, ih]

/-- Similarity scores are one minus the reported distances, positionally. -/
lemma formatResultsFrom_map_score :
    ∀ (hits : List RawHit) (i : Nat),
      (formatResultsFrom i hits).map SearchResult.similarity_score =
        hits.map (fun h => 1 - h.distance) := by
  intro hits
  induction hits with
  | nil => intro i; rfl
  | cons h t ih =>
      intro i
      simp [formatResultsFrom, ih]

/-- C8: when the index query succeeds with a list of hits, search formats
them so that the rank fields are exactly 1..n in order with no gaps and
each similarity_score is 1 minus the reported cosine distance. -/
theorem search_rank_similarity (hits : List RawHit) :
    search (Except.ok hits) = formatResults hits ∧
    (formatResults hits).map SearchResult.rank =
      List.range' 1 hits.length ∧
    (formatResults hits).map SearchResult.similarity_score =
      hits.map (fun h => 1 - h.distance) :=
  ⟨rfl, formatResultsFrom_map_rank hits 0, formatResultsFrom_map_score hits 0⟩

/-- C6 counterexample: a failed retrieval returns the empty list, the very
value a legitimately empty retrieval returns, so the caller receives no
structured failure result distinguishable from an empty result. -/
theorem search_failure_cex :
    search (Except.error "embedding failure") = search (Except.ok []) ∧
    search (Except.error "embedding failure") = [] :=
  ⟨rfl, rfl⟩

/-- C6 amended: on any embedding or index failure, search returns the empty
sequence, and search_documents likewise returns the empty sequence on any
failure of the inner call; the failure is only logged, and the returned
value carries no failure indication. -/
theorem search_failure_empty (e e2 : String) :
    search (Except.error e) = [] ∧
    search (Except.error e) = search (Except.ok []) ∧
    search_documents (Except.error e2) = [] :=
  ⟨rfl, rfl, rfl⟩

/-- C10: get_conversation_history returns a fresh copy of the stored
history: the copy holds the same turns, and an arbitrary mutation of the
returned list object leaves the list stored at the internal reference
unchanged, provided the internal reference is an already-allocated address. -/
theorem get_conversation_history_copy (histRef : Nat) (h : Heap)
    (hwf : histRef < h.next) (mutate : List Turn → List Turn) :
    hget (get_conversation_history histRef h).2
        (get_conversation_history histRef h).1 = hget h histRef ∧
    hget (hset (get_conversation_history histRef h).2
        (get_conversation_history histRef h).1
        (mutate (hget (get_conversation_history histRef h).2
          (get_conversation_history histRef h).1)))
      histRef = hget h histRef := by
  have hne : histRef ≠ h.next := Nat.ne_of_lt hwf
  constructor
  · simp [get_conversation_history, halloc, hget]
  · simp [get_conversation_history, halloc, hget, hset, hne]

/-- Witness for get_conversation_history_copy: a heap with one allocated
empty history, read out and then mutated by appending a turn. -/
theorem get_conversation_history_copy_witness :
    hget (get_conversation_history 0 ⟨fun _ => [], 1⟩).2
        (get_conversation_history 0 ⟨fun _ => [], 1⟩).1 =
      hget ⟨fun _ => [], 1⟩ 0 ∧
    hget (hset (get_conversation_history 0 ⟨fun _ => [], 1⟩).2
        (get_conversation_history 0 ⟨fun _ => [], 1⟩).1
        ((fun l => l ++ [⟨"user", "x"⟩])
          (hget (get_conversation_history 0 ⟨fun _ => [], 1⟩).2
            (get_conversation_history 0 ⟨fun _ => [], 1⟩).1)))
      0 = hget ⟨fun _ => [], 1⟩ 0 :=
  get_conversation_history_copy 0 ⟨fun _ => [], 1⟩ (by decide)
    (fun l => l ++ [⟨"user", "x"⟩])

end PMC
